import Mathlib

/-!
Verification of the backend core of the buffalo_angular time-tracking
application: the time-entry session state machine
(`backend/actions/timetrac_actions.go`) and the authentication token
lifecycle (`backend/actions/auth_actions.go`, `auth_middleware.go`,
`jwt.go`), over a shallow embedding of the Go handlers.

Modelling conventions:
* Timestamps are `Nat` (`now()` is passed explicitly to each operation).
* `uuid.UUID` entry/user ids of the ledger are `Nat`; the string-typed
  user ids and JTIs of the token registry are `String`.
* The per-request SQL transaction is explicit state passing: each handler
  takes the ledger / registry and returns the updated one.
* Fallible handlers return `Except HttpErr α` where `HttpErr` carries the
  HTTP status and the JSON error message rendered by the Go code.
* `c.Bind` on a payload of non-pointer Go fields leaves zero values for
  omitted JSON keys, so `StartPayload` carries plain values (omitted =
  `""` / `[]`); `TracksUpdate`'s payload uses pointer fields in Go, so
  `UpdatePayload` carries `Option`s (field absent = `none`).
* The optional geo/photo columns of `timetrac` are carried through
  opaquely by the handlers and are not consulted by any lifecycle rule;
  they are omitted from the embedding.
-/

namespace BuffaloAngular

/-- HTTP error response: status code plus the rendered JSON error text. -/
structure HttpErr where
  status : Nat
  msg : String
deriving Repr, DecidableEq

/-- Model of Go `strings.TrimSpace`: drop leading and trailing
whitespace (structurally recursive over the character list so that
concrete instances reduce). -/
def trimSpace (s : String) : String :=
  ⟨List.reverse (List.dropWhile Char.isWhitespace
    (List.reverse (List.dropWhile Char.isWhitespace s.data)))⟩

/-- Model of Go `strings.ToLower` over the character list. -/
def lowerStr (s : String) : String :=
  ⟨s.data.map Char.toLower⟩

/-- Row of the `timetrac` table (`backend/models/timetrac.go`):
`end_at IS NULL` (`endAt = none`) means the entry is running. -/
structure TimeEntry where
  id : Nat
  userId : Nat
  project : String
  tags : List String
  note : String
  color : String
  startAt : Nat
  endAt : Option Nat
  createdAt : Nat
  updatedAt : Nat
deriving Repr, DecidableEq

/-- The Session Ledger: contents of the `timetrac` table. -/
abbrev Ledger := List TimeEntry

/-- Predicate of the SQL filter `user_id = ? AND end_at IS NULL`:
the entry is a running (open) entry of user `uid`. -/
def isOpenFor (uid : Nat) (e : TimeEntry) : Bool :=
  decide (e.userId = uid ∧ e.endAt = none)

/-- Number of open entries of user `uid` in the ledger. -/
def openCount (uid : Nat) (l : Ledger) : Nat :=
  l.countP (isOpenFor uid)

/-- Single-open-entry invariant of the Session Ledger: every user has at
most one entry with `end_at IS NULL`. -/
def LedgerInv (l : Ledger) : Prop :=
  ∀ uid, openCount uid l ≤ 1

/-- Primary-key wellformedness of the `timetrac` table: entry ids are
unique (schema: `timetrac_pkey PRIMARY KEY (id)`). -/
def UniqueIds (l : Ledger) : Prop :=
  (l.map TimeEntry.id).Nodup

/-- Effect of `UPDATE timetrac SET end_at = now(), updated_at = now()
WHERE user_id = ? AND end_at IS NULL` on one row
(timetrac_actions.go line 71). -/
def closeRow (uid now : Nat) (e : TimeEntry) : TimeEntry :=
  if isOpenFor uid e then { e with endAt := some now, updatedAt := now } else e

/-- Effect of the auto-stop UPDATE on the whole table. -/
def closeOpen (uid now : Nat) (l : Ledger) : Ledger :=
  l.map (closeRow uid now)

/-- JSON payload of `POST /api/tracks/start`. Go binds omitted fields to
zero values, so omitted `project`/`note`/`color` arrive as `""` and
omitted `tags` as `[]`. -/
structure StartPayload where
  project : String
  tags : List String
  note : String
  color : String
deriving Repr, DecidableEq

/-- `TracksStart` (timetrac_actions.go lines 47-86): sanitize the
payload (trim project and color, default blank color to `"#3b82f6"`),
auto-stop every running entry of the user, then insert a fresh running
entry. Returns the created entry and the new ledger. `freshId` is the
`gen_random_uuid()` primary key chosen by the database. -/
def TracksStart (uid now freshId : Nat) (p : StartPayload) (l : Ledger) :
    TimeEntry × Ledger :=
  let project := trimSpace p.project
  let color := if trimSpace p.color = "" then "#3b82f6" else trimSpace p.color
  let item : TimeEntry :=
    { id := freshId, userId := uid, project := project, tags := p.tags
      note := p.note, color := color, startAt := now, endAt := none
      createdAt := now, updatedAt := now }
  (item, closeOpen uid now l ++ [item])

/-- `tx.Where("id = ? AND user_id = ?").First(&item)`: first row whose id
and owner match. -/
def findById (i uid : Nat) (l : Ledger) : Option TimeEntry :=
  l.find? (fun e => decide (e.id = i ∧ e.userId = uid))

/-- Reduction step realizing `ORDER BY start_at DESC ... First`: keep
the row with the greater `start_at` (the earlier row wins ties). -/
def maxStart (acc : Option TimeEntry) (e : TimeEntry) : Option TimeEntry :=
  match acc with
  | none => some e
  | some b => if b.startAt < e.startAt then some e else some b

/-- `tx.Where("user_id = ? AND end_at IS NULL").Order("start_at DESC").First`:
the open entry of `uid` with the greatest `start_at` (the first row in
descending start order). -/
def mostRecentOpen (uid : Nat) (l : Ledger) : Option TimeEntry :=
  (l.filter (isOpenFor uid)).foldl maxStart none

/-- `tx.Update(&item)`: write the row back by primary key. -/
def updateEntry (e' : TimeEntry) (l : Ledger) : Ledger :=
  l.map (fun e => if e.id = e'.id then e' else e)

/-- `TracksStop` (timetrac_actions.go lines 89-125): with an id, load
that entry of the caller; without one, load the most recently started
open entry. Either lookup failure renders 404 `"no running entry"`.
On success set `end_at = now`, bump `updated_at`, and save. -/
def TracksStop (uid now : Nat) (pid : Option Nat) (l : Ledger) :
    Except HttpErr (TimeEntry × Ledger) :=
  let found := match pid with
    | some i => findById i uid l
    | none => mostRecentOpen uid l
  match found with
  | none => .error ⟨404, "no running entry"⟩
  | some e =>
      let e' := { e with endAt := some now, updatedAt := now }
      .ok (e', updateEntry e' l)

/-- JSON payload of `PATCH /api/tracks/id`: all four fields are Go
pointers, so `none` means the key was absent from the request. -/
structure UpdatePayload where
  project : Option String
  tags : Option (List String)
  note : Option String
  color : Option String
deriving Repr, DecidableEq

/-- Field-wise patch of `TracksUpdate` (timetrac_actions.go lines
157-169): provided project is trimmed, provided tags/note replace, a
provided color is applied (trimmed) only when non-blank after trimming,
and `updated_at` is always bumped. -/
def applyPatch (p : UpdatePayload) (now : Nat) (e : TimeEntry) : TimeEntry :=
  let e1 := match p.project with
    | some s => { e with project := trimSpace s }
    | none => e
  let e2 := match p.tags with
    | some t => { e1 with tags := t }
    | none => e1
  let e3 := match p.note with
    | some n => { e2 with note := n }
    | none => e2
  let e4 := match p.color with
    | some c => if trimSpace c ≠ "" then { e3 with color := trimSpace c } else e3
    | none => e3
  { e4 with updatedAt := now }

/-- `TracksUpdate` (timetrac_actions.go lines 128-175): load the entry
by id and owner (404 `"not found"` when absent or not owned), apply the
partial patch, save. -/
def TracksUpdate (uid now i : Nat) (p : UpdatePayload) (l : Ledger) :
    Except HttpErr (TimeEntry × Ledger) :=
  match findById i uid l with
  | none => .error ⟨404, "not found"⟩
  | some e =>
      let e' := applyPatch p now e
      .ok (e', updateEntry e' l)

/-- `TracksDelete` (auth_actions.go lines 618-648, the row-count
checking variant): `DELETE FROM timetrac WHERE id = $1 AND user_id = $2`,
then 404 `"not found"` exactly when `RowsAffected` is zero. -/
def TracksDelete (uid i : Nat) (l : Ledger) : Except HttpErr Ledger :=
  let hit := fun e => decide (e.id = i ∧ e.userId = uid)
  let rowsAffected := l.countP hit
  let l' := l.filter (fun e => ! hit e)
  if rowsAffected = 0 then .error ⟨404, "not found"⟩ else .ok l'

/-- Row of the `auth_tokens` table (`backend/models/auth_token.go`,
schema: primary key `jti`): `revoked_at IS NULL` (`revokedAt = none`)
means the token is still active. -/
structure AuthTokenRow where
  jti : String
  userId : String
  revokedAt : Option Nat
  expiresAt : Nat
  createdAt : Nat
  updatedAt : Nat
deriving Repr, DecidableEq

/-- The Token Registry: contents of the `auth_tokens` table. -/
abbrev Registry := List AuthTokenRow

/-- Row of the `users` table as consumed by the auth code. -/
structure User where
  id : String
  email : String
  passwordHash : String
deriving Repr, DecidableEq

/-- Decoded JWT claims (`jwt.go JWTClaims`): the `uid` claim, the JTI
(`RegisteredClaims.ID`) and the optional `exp` claim. -/
structure Claims where
  userId : String
  jti : String
  expiresAt : Option Nat
deriving Repr, DecidableEq

/-- Causes of `ParseJWT` failure, internal to the verifier (the spec's
`Expired` / `InvalidSignature` / `Malformed` distinction). -/
inductive VerifyErr where
  | expired
  | invalidSignature
  | malformed
deriving Repr, DecidableEq

/-- The verifier is an abstract parameter of the middleware and of
logout: `ParseJWT` is stateless cryptography (an external collaborator),
so it is modelled as an arbitrary function from the presented credential
to claims or a failure cause. -/
abbrev Verifier := String → Except VerifyErr Claims

/-- The plain registry INSERT performed at issuance (auth_actions.go
lines 170-173 for login; lines 102-105 for registration insert the same
row shape): a new row with `revoked_at` NULL. On a `jti` primary-key
conflict the INSERT is a database error (`none`). -/
def recordToken (jti uid : String) (exp now : Nat) (reg : Registry) :
    Option Registry :=
  if reg.any (fun r => r.jti = jti) then none
  else some (reg ++ [⟨jti, uid, none, exp, now, now⟩])

/-- The logout upsert (auth_actions.go lines 264-271):
`INSERT ... revoked_at = now() ... ON CONFLICT (jti) DO UPDATE SET
revoked_at = EXCLUDED.revoked_at, expires_at = EXCLUDED.expires_at,
updated_at = now()`. When the row exists it is re-marked revoked at
`now`; otherwise the row is created pre-revoked. -/
def revokeToken (jti uid : String) (exp now : Nat) (reg : Registry) :
    Registry :=
  if reg.any (fun r => r.jti = jti) then
    reg.map (fun r =>
      if r.jti = jti then
        { r with revokedAt := some now, expiresAt := exp, updatedAt := now }
      else r)
  else reg ++ [⟨jti, uid, some now, exp, now, now⟩]

/-- The middleware revocation check (auth_middleware.go lines 30-33):
`tx.Where("jti = ? AND revoked_at IS NOT NULL").First` succeeds iff some
row for this JTI carries a non-null `revoked_at`. -/
def isRevoked (jti : String) (reg : Registry) : Bool :=
  reg.any (fun r => r.jti = jti && r.revokedAt != none)

/-- User lookup of the middleware (auth_middleware.go lines 36-40):
`uuid.FromString(claims.UserID)` then `tx.Find(&u, uid)`; a parse
failure and a missing row take the same branch, so both are `none`. -/
def findUser (uid : String) (users : List User) : Option User :=
  users.find? (fun u => u.id = uid)

/-- Model of `strings.HasPrefix(authz, "Bearer ")` over the character
list (structurally recursive so that concrete instances reduce). -/
def hasBearer (authz : String) : Bool :=
  decide (authz.data.take 7 = "Bearer ".data)

/-- Model of `strings.TrimPrefix(authz, "Bearer ")` (used only after the
prefix check has succeeded). -/
def dropBearer (authz : String) : String :=
  ⟨authz.data.drop 7⟩

/-- `AuthRequired` (auth_middleware.go lines 16-45): extract the bearer
credential, verify it, consult the registry for revocation, load the
user. Each failure renders status 401 with its own message; success
yields the resolved user for the downstream handler. -/
def AuthRequired (authz : String) (parse : Verifier) (reg : Registry)
    (users : List User) : Except HttpErr User :=
  if authz = "" ∨ ¬ hasBearer authz then
    .error ⟨401, "missing bearer token"⟩
  else
    match parse (dropBearer authz) with
    | .error _ => .error ⟨401, "invalid token"⟩
    | .ok claims =>
        if isRevoked claims.jti reg then .error ⟨401, "token revoked"⟩
        else
          match findUser claims.userId users with
          | none => .error ⟨401, "user not found"⟩
          | some u => .ok u

/-- Outcome of an auth endpoint: HTTP status, rendered message, and the
JWT handed to the caller when one is. -/
structure AuthResp where
  status : Nat
  msg : String
  token : Option String
deriving Repr, DecidableEq

/-- `Login` (auth_actions.go lines 142-182), from the point where the
payload is bound: normalize the email, look the user up, check the
password (`bcrypt.CompareHashAndPassword`, an external collaborator,
modelled as the abstract `checkPw`), issue a token (`GenerateJWT` output
passed in as `token`/`jti`/`exp`), and INSERT the registry row. A
persistence failure of that INSERT (`dbFail`) is surfaced as 500
`"cannot persist token"`. -/
def Login (users : List User) (email password : String)
    (checkPw : String → String → Bool) (token jti : String)
    (exp now : Nat) (dbFail : Bool) (reg : Registry) :
    AuthResp × Registry :=
  let email := lowerStr (trimSpace email)
  match users.find? (fun u => u.email = email) with
  | none => (⟨401, "invalid credentials", none⟩, reg)
  | some u =>
      if ¬ checkPw u.passwordHash password then
        (⟨401, "invalid credentials", none⟩, reg)
      else if dbFail then (⟨500, "cannot persist token", none⟩, reg)
      else
        (⟨200, "ok", some token⟩,
          (recordToken jti u.id exp now reg).getD reg)

/-- `Register` (auth_actions.go lines 61-112), from the point where the
payload is bound: validate, reject duplicate emails, create the user,
issue a token, and attempt the registry INSERT with its error discarded
(`_ = tx.RawQuery(...).Exec()`, line 102): on `dbFail` the row is simply
missing and the caller still receives the token with status 201. -/
def Register (users : List User) (email password : String)
    (newId hash token jti : String) (exp now : Nat) (dbFail : Bool)
    (reg : Registry) : AuthResp × List User × Registry :=
  let email := lowerStr (trimSpace email)
  if email = "" ∨ password.length < 6 then
    (⟨422, "email or password invalid", none⟩, users, reg)
  else
    match users.find? (fun u => u.email = email) with
    | some _ => (⟨409, "email already in use", none⟩, users, reg)
    | none =>
        let u : User := ⟨newId, email, hash⟩
        let reg' := if dbFail then reg
          else (recordToken jti u.id exp now reg).getD reg
        (⟨201, "created", some token⟩, users ++ [u], reg')

/-- `Logout` (auth_actions.go lines 238-276): require a bearer
credential, parse it (401 on failure), compute the expiry to store
(claim `exp` when present, else `now + ttl` from `jwtExpiry()`), then
run the revocation upsert. A persistence failure of the upsert
(`dbFail`) is surfaced as 500 `"logout failed"` and leaves the registry
unchanged. -/
def Logout (authz : String) (parse : Verifier) (ttl now : Nat)
    (dbFail : Bool) (reg : Registry) : AuthResp × Registry :=
  if authz = "" ∨ ¬ hasBearer authz then
    (⟨401, "missing token", none⟩, reg)
  else
    match parse (dropBearer authz) with
    | .error _ => (⟨401, "invalid token", none⟩, reg)
    | .ok claims =>
        let exp := claims.expiresAt.getD (now + ttl)
        if dbFail then (⟨500, "logout failed", none⟩, reg)
        else (⟨200, "logged out", none⟩,
          revokeToken claims.jti claims.userId exp now reg)

/-! ### Helper lemmas about the Session Ledger operations -/

@[simp]
lemma isOpenFor_eq_true_iff (uid : Nat) (e : TimeEntry) :
    isOpenFor uid e = true ↔ (e.userId = uid ∧ e.endAt = none) := by
  simp [isOpenFor]

lemma isOpenFor_closeRow (uid now : Nat) (e : TimeEntry) :
    isOpenFor uid (closeRow uid now e) = false := by
  unfold closeRow
  split
  · simp [isOpenFor]
  · next h => simp only [Bool.not_eq_true] at h; exact h

lemma isOpenFor_closeRow_other (v uid now : Nat) (hv : v ≠ uid)
    (e : TimeEntry) : isOpenFor v (closeRow uid now e) = isOpenFor v e := by
  unfold closeRow
  split
  · next h =>
      rw [isOpenFor_eq_true_iff] at h
      have h1 : isOpenFor v { e with endAt := some now, updatedAt := now } = false := by
        simp [isOpenFor]
      have h2 : isOpenFor v e = false := by
        simp only [isOpenFor, decide_eq_false_iff_not]
        rintro ⟨hu, -⟩
        exact hv (hu ▸ h.1)
      rw [h1, h2]
  · rfl

lemma openCount_closeOpen_self (uid now : Nat) (l : Ledger) :
    openCount uid (closeOpen uid now l) = 0 := by
  unfold openCount closeOpen
  rw [List.countP_map, List.countP_eq_zero]
  intro a _
  simp [Function.comp, isOpenFor_closeRow]

lemma openCount_closeOpen_other (v uid now : Nat) (hv : v ≠ uid)
    (l : Ledger) : openCount v (closeOpen uid now l) = openCount v l := by
  unfold openCount closeOpen
  rw [List.countP_map]
  apply List.countP_congr
  intro a _
  simp [Function.comp, isOpenFor_closeRow_other v uid now hv]

lemma openCount_append (v : Nat) (l₁ l₂ : Ledger) :
    openCount v (l₁ ++ l₂) = openCount v l₁ + openCount v l₂ :=
  List.countP_append ..

lemma openCount_updateEntry_le (v : Nat) (e' : TimeEntry) (t : Nat)
    (he : e'.endAt = some t) (l : Ledger) :
    openCount v (updateEntry e' l) ≤ openCount v l := by
  unfold openCount updateEntry
  rw [List.countP_map]
  apply List.countP_mono_left
  intro a _ h
  by_cases hid : a.id = e'.id
  · exfalso
    simp [Function.comp, hid, isOpenFor, he] at h
  · simpa [Function.comp, hid] using h

lemma updateEntry_not_hit (e' : TimeEntry) (l : Ledger)
    (h : ∀ y ∈ l, y.id ≠ e'.id) : updateEntry e' l = l := by
  unfold updateEntry
  have hcong : ∀ a ∈ l, (if a.id = e'.id then e' else a) = id a := by
    intro a ha
    simp [h a ha]
  rw [List.map_congr_left hcong, List.map_id]

lemma openCount_updateEntry_eq (v : Nat) (e e' : TimeEntry) (l : Ledger)
    (hu : UniqueIds l) (hmem : e ∈ l) (hid : e'.id = e.id)
    (huser : e'.userId = e.userId) (hend : e'.endAt = e.endAt) :
    openCount v (updateEntry e' l) = openCount v l := by
  revert hu hmem
  induction l with
  | nil => intro _ hmem; exact absurd hmem (List.not_mem_nil e)
  | cons x xs ih =>
      intro hu hmem
      have hnd : x.id ∉ xs.map TimeEntry.id ∧ (xs.map TimeEntry.id).Nodup := by
        simpa [UniqueIds, List.nodup_cons] using hu
      by_cases hx : x.id = e'.id
      · have hex : e = x := by
          rcases List.mem_cons.mp hmem with h | h
          · exact h
          · exfalso
            apply hnd.1
            have hmm : e.id ∈ xs.map TimeEntry.id := List.mem_map_of_mem TimeEntry.id h
            rw [← hid, ← hx] at hmm
            exact hmm
        have htail : ∀ y ∈ xs, y.id ≠ e'.id := by
          intro y hy hy'
          apply hnd.1
          have hmm : y.id ∈ xs.map TimeEntry.id := List.mem_map_of_mem TimeEntry.id hy
          rw [hy'] at hmm
          rw [hx]
          exact hmm
        have hupd : updateEntry e' (x :: xs) = e' :: xs := by
          unfold updateEntry
          rw [List.map_cons, if_pos hx]
          congr 1
          exact updateEntry_not_hit e' xs htail
        have hopen : isOpenFor v e' = isOpenFor v x := by
          unfold isOpenFor
          rw [hex] at huser hend
          rw [huser, hend]
        rw [hupd]
        unfold openCount
        rw [List.countP_cons, List.countP_cons, hopen]
      · have hex : e ∈ xs := by
          rcases List.mem_cons.mp hmem with h | h
          · exfalso; apply hx; rw [h] at hid; exact hid.symm
          · exact h
        have hupd : updateEntry e' (x :: xs) = x :: updateEntry e' xs := by
          unfold updateEntry
          rw [List.map_cons, if_neg hx]
        rw [hupd]
        unfold openCount
        rw [List.countP_cons, List.countP_cons]
        have hih := ih hnd.2 hex
        unfold openCount at hih
        rw [hih]

lemma foldl_maxStart_acc (xs : List TimeEntry) :
    ∀ b : TimeEntry, ∃ c, xs.foldl maxStart (some b) = some c ∧
      (c = b ∨ c ∈ xs) ∧ b.startAt ≤ c.startAt ∧
      ∀ a ∈ xs, a.startAt ≤ c.startAt := by
  induction xs with
  | nil =>
      intro b
      exact ⟨b, rfl, Or.inl rfl, Nat.le_refl _, by intro a ha; cases ha⟩
  | cons x xs ih =>
      intro b
      by_cases hlt : b.startAt < x.startAt
      · obtain ⟨c, hc, hmem, hle, hall⟩ := ih x
        refine ⟨c, ?_, ?_, ?_, ?_⟩
        · rw [List.foldl_cons]
          rw [show maxStart (some b) x = some x by simp [maxStart, hlt]]
          exact hc
        · rcases hmem with h | h
          · exact Or.inr (h ▸ List.mem_cons_self x xs)
          · exact Or.inr (List.mem_cons_of_mem x h)
        · exact Nat.le_trans (Nat.le_of_lt hlt) hle
        · intro a ha
          rcases List.mem_cons.mp ha with h | h
          · exact h ▸ hle
          · exact hall a h
      · obtain ⟨c, hc, hmem, hle, hall⟩ := ih b
        refine ⟨c, ?_, ?_, ?_, ?_⟩
        · rw [List.foldl_cons]
          rw [show maxStart (some b) x = some b by simp [maxStart, hlt]]
          exact hc
        · rcases hmem with h | h
          · exact Or.inl h
          · exact Or.inr (List.mem_cons_of_mem x h)
        · exact hle
        · intro a ha
          rcases List.mem_cons.mp ha with h | h
          · exact h ▸ Nat.le_trans (Nat.le_of_not_lt hlt) hle
          · exact hall a h

lemma mostRecentOpen_eq_none_iff (uid : Nat) (l : Ledger) :
    mostRecentOpen uid l = none ↔
      ∀ e ∈ l, ¬(e.userId = uid ∧ e.endAt = none) := by
  have hfil : mostRecentOpen uid l = none ↔ l.filter (isOpenFor uid) = [] := by
    unfold mostRecentOpen
    cases hf : l.filter (isOpenFor uid) with
    | nil => simp
    | cons h t =>
        obtain ⟨c, hc, -, -, -⟩ := foldl_maxStart_acc t h
        rw [List.foldl_cons]
        rw [show maxStart none h = some h from rfl]
        simp [hc]
  rw [hfil, List.filter_eq_nil_iff]
  constructor
  · intro h e he hopen
    exact h e he (by simpa [isOpenFor] using hopen)
  · intro h e he hopen
    exact h e he (by simpa [isOpenFor] using hopen)

lemma mostRecentOpen_spec (uid : Nat) (l : Ledger) (e : TimeEntry)
    (h : mostRecentOpen uid l = some e) :
    e ∈ l ∧ e.userId = uid ∧ e.endAt = none ∧
      ∀ b ∈ l, b.userId = uid → b.endAt = none → b.startAt ≤ e.startAt := by
  unfold mostRecentOpen at h
  cases hf : l.filter (isOpenFor uid) with
  | nil => rw [hf] at h; cases h
  | cons x t =>
      rw [hf, List.foldl_cons,
        show maxStart none x = some x from rfl] at h
      obtain ⟨c, hc, hmem, hle, hall⟩ := foldl_maxStart_acc t x
      rw [hc] at h
      cases h
      have hef : e ∈ l.filter (isOpenFor uid) := by
        rw [hf]
        rcases hmem with h | h
        · exact h ▸ List.mem_cons_self x t
        · exact List.mem_cons_of_mem x h
      have hel := List.mem_filter.mp hef
      have hopen := (isOpenFor_eq_true_iff uid e).mp hel.2
      refine ⟨hel.1, hopen.1, hopen.2, ?_⟩
      intro b hb hbu hbe
      have hbf : b ∈ l.filter (isOpenFor uid) :=
        List.mem_filter.mpr ⟨hb, by simp [isOpenFor, hbu, hbe]⟩
      rw [hf] at hbf
      rcases List.mem_cons.mp hbf with hh | hh
      · exact hh ▸ hle
      · exact hall b hh

lemma findById_eq_none_iff (i uid : Nat) (l : Ledger) :
    findById i uid l = none ↔ ∀ e ∈ l, ¬(e.id = i ∧ e.userId = uid) := by
  unfold findById
  rw [List.find?_eq_none]
  constructor
  · intro h e he hmatch
    exact h e he (by simpa using hmatch)
  · intro h e he hmatch
    exact h e he (by simpa using hmatch)

lemma findById_some (i uid : Nat) (l : Ledger) (e : TimeEntry)
    (h : findById i uid l = some e) :
    e ∈ l ∧ e.id = i ∧ e.userId = uid := by
  unfold findById at h
  refine ⟨List.mem_of_find?_eq_some h, ?_⟩
  have := List.find?_some h
  simpa using this

lemma openCount_singleton (v : Nat) (e : TimeEntry) :
    openCount v [e] = if isOpenFor v e then 1 else 0 := by
  simp [openCount, List.countP_cons]

lemma closeRow_of_open (uid now : Nat) (e : TimeEntry) (hu : e.userId = uid)
    (he : e.endAt = none) :
    closeRow uid now e = { e with endAt := some now, updatedAt := now } := by
  unfold closeRow
  rw [if_pos]
  rw [isOpenFor_eq_true_iff]
  exact ⟨hu, he⟩

lemma closeRow_of_not_open (uid now : Nat) (e : TimeEntry)
    (h : ¬(e.userId = uid ∧ e.endAt = none)) : closeRow uid now e = e := by
  unfold closeRow
  rw [if_neg]
  simpa [isOpenFor] using h

/-! ### Claim theorems over the Session Ledger -/

/-- C2: `TracksStart` first sets `end_at = now` on every currently open
entry of the user, then inserts a new entry with `end_at` NULL carrying
the supplied project (trimmed), tags, note and color, where a blank or
omitted color (omitted fields bind to zero values) defaults to
`"#3b82f6"`, and the handler returns the newly created entry. -/
theorem tracksStart_spec (uid now fid : Nat) (p : StartPayload) (l : Ledger) :
    (TracksStart uid now fid p l).1.endAt = none ∧
    (TracksStart uid now fid p l).1.userId = uid ∧
    (TracksStart uid now fid p l).1.startAt = now ∧
    (TracksStart uid now fid p l).1.project = trimSpace p.project ∧
    (TracksStart uid now fid p l).1.tags = p.tags ∧
    (TracksStart uid now fid p l).1.note = p.note ∧
    (TracksStart uid now fid p l).1.color =
      (if trimSpace p.color = "" then "#3b82f6" else trimSpace p.color) ∧
    (TracksStart uid now fid p l).1 ∈ (TracksStart uid now fid p l).2 ∧
    (∀ e ∈ l, e.userId = uid → e.endAt = none →
      { e with endAt := some now, updatedAt := now } ∈
        (TracksStart uid now fid p l).2) ∧
    (∀ e ∈ l, ¬(e.userId = uid ∧ e.endAt = none) →
      e ∈ (TracksStart uid now fid p l).2) := by
  have hl' : (TracksStart uid now fid p l).2 =
      closeOpen uid now l ++ [(TracksStart uid now fid p l).1] := rfl
  refine ⟨rfl, rfl, rfl, rfl, rfl, rfl, rfl, ?_, ?_, ?_⟩
  · rw [hl']
    exact List.mem_append_right _ (List.mem_singleton.mpr rfl)
  · intro e he hu hend
    rw [hl']
    apply List.mem_append_left
    rw [← closeRow_of_open uid now e hu hend]
    exact List.mem_map_of_mem _ he
  · intro e he hnot
    rw [hl']
    apply List.mem_append_left
    rw [← closeRow_of_not_open uid now e hnot]
    exact List.mem_map_of_mem _ he

/-- C10: calling `TracksStop` with the id of an entry that the caller
owns but that is already closed does not fail: the handler looks the
entry up without an `end_at IS NULL` filter, overwrites its end
timestamp with the current time and bumps `updated_at`, silently
changing the recorded duration. -/
theorem tracksStop_closed_overwrite (uid now i t0 : Nat) (l : Ledger)
    (e : TimeEntry) (hfind : findById i uid l = some e)
    (hclosed : e.endAt = some t0) :
    TracksStop uid now (some i) l =
      .ok ({ e with endAt := some now, updatedAt := now },
        updateEntry { e with endAt := some now, updatedAt := now } l) ∧
    ({ e with endAt := some now, updatedAt := now }).endAt = some now ∧
    ({ e with endAt := some now, updatedAt := now }).updatedAt = now := by
  refine ⟨?_, rfl, rfl⟩
  simp [TracksStop, hfind]

/-- C6: `TracksDelete` (the `RowsAffected`-checking handler) runs the
ownership-scoped `DELETE` and renders 404 `"not found"` exactly when the
affected-row count is zero, which happens exactly when no entry with
that id is owned by the caller; on success the matching entry is
hard-removed and every other entry is kept. -/
theorem tracksDelete_rowcount_spec :
    (∀ uid i l, TracksDelete uid i l = .error ⟨404, "not found"⟩ ↔
      l.countP (fun e => decide (e.id = i ∧ e.userId = uid)) = 0) ∧
    (∀ uid i (l : Ledger),
      l.countP (fun e => decide (e.id = i ∧ e.userId = uid)) = 0 ↔
      ∀ e ∈ l, ¬(e.id = i ∧ e.userId = uid)) ∧
    (∀ uid i l l', TracksDelete uid i l = .ok l' →
      (∀ e ∈ l', ¬(e.id = i ∧ e.userId = uid)) ∧
      (∀ e ∈ l, ¬(e.id = i ∧ e.userId = uid) → e ∈ l')) := by
  refine ⟨?_, ?_, ?_⟩
  · intro uid i l
    unfold TracksDelete
    by_cases h : l.countP (fun e => decide (e.id = i ∧ e.userId = uid)) = 0
    · simp [h]
    · simp [h]
  · intro uid i l
    rw [List.countP_eq_zero]
    constructor
    · intro h e he hmatch
      exact h e he (by simpa using hmatch)
    · intro h e he hmatch
      exact h e he (by simpa using hmatch)
  · intro uid i l l' h
    simp only [TracksDelete] at h
    by_cases hc : l.countP (fun e => decide (e.id = i ∧ e.userId = uid)) = 0
    · rw [if_pos hc] at h
      exact Except.noConfusion h
    · rw [if_neg hc, Except.ok.injEq] at h
      subst h
      constructor
      · intro e he hmatch
        have hb := (List.mem_filter.mp he).2
        rw [decide_eq_true hmatch] at hb
        simp at hb
      · intro e he hno
        refine List.mem_filter.mpr ⟨he, ?_⟩
        rw [decide_eq_false hno]
        rfl

lemma tracksStop_ok_shape (uid now : Nat) (pid : Option Nat) (l : Ledger)
    (e : TimeEntry) (l' : Ledger)
    (h : TracksStop uid now pid l = .ok (e, l')) :
    e.endAt = some now ∧ l' = updateEntry e l := by
  cases pid with
  | some i =>
      cases hf : findById i uid l with
      | none => simp [TracksStop, hf] at h
      | some e0 =>
          simp only [TracksStop, hf, Except.ok.injEq, Prod.mk.injEq] at h
          obtain ⟨he, hl⟩ := h
          subst he
          exact ⟨rfl, hl.symm⟩
  | none =>
      cases hf : mostRecentOpen uid l with
      | none => simp [TracksStop, hf] at h
      | some e0 =>
          simp only [TracksStop, hf, Except.ok.injEq, Prod.mk.injEq] at h
          obtain ⟨he, hl⟩ := h
          subst he
          exact ⟨rfl, hl.symm⟩

lemma applyPatch_frame (p : UpdatePayload) (now : Nat) (e : TimeEntry) :
    (applyPatch p now e).id = e.id ∧ (applyPatch p now e).userId = e.userId ∧
    (applyPatch p now e).startAt = e.startAt ∧
    (applyPatch p now e).endAt = e.endAt ∧
    (applyPatch p now e).createdAt = e.createdAt ∧
    (applyPatch p now e).updatedAt = now := by
  rcases p with ⟨pp, pt, pn, pc⟩
  unfold applyPatch
  cases pp <;> cases pt <;> cases pn <;> cases pc <;>
    simp <;> split <;> simp

lemma applyPatch_fields (p : UpdatePayload) (now : Nat) (e : TimeEntry) :
    (applyPatch p now e).project =
      (match p.project with | some s => trimSpace s | none => e.project) ∧
    (applyPatch p now e).tags = p.tags.getD e.tags ∧
    (applyPatch p now e).note = p.note.getD e.note ∧
    (applyPatch p now e).color =
      (match p.color with
        | some c => if trimSpace c ≠ "" then trimSpace c else e.color
        | none => e.color) := by
  rcases p with ⟨pp, pt, pn, pc⟩
  unfold applyPatch
  cases pp <;> cases pt <;> cases pn <;> cases pc <;>
    simp <;> split <;> simp

lemma tracksUpdate_ok_shape (uid now i : Nat) (p : UpdatePayload)
    (l : Ledger) (e' : TimeEntry) (l' : Ledger)
    (h : TracksUpdate uid now i p l = .ok (e', l')) :
    ∃ e0, findById i uid l = some e0 ∧ e' = applyPatch p now e0 ∧
      l' = updateEntry e' l := by
  cases hf : findById i uid l with
  | none => simp [TracksUpdate, hf] at h
  | some e0 =>
      simp only [TracksUpdate, hf, Except.ok.injEq, Prod.mk.injEq] at h
      obtain ⟨he, hl⟩ := h
      rw [he] at hl
      exact ⟨e0, rfl, he.symm, hl.symm⟩

/-- C5: `TracksStop` with an id closes exactly the entry with that id
owned by the caller, and fails with the one 404 response when no such
entry exists — deliberately the same error whether the id is absent
altogether or belongs to another user; without an id it closes the open
entry of the caller with the greatest `start_at` and fails with the same
404 response exactly when the caller has no open entry. -/
theorem tracksStop_spec :
    (∀ uid now i l,
      TracksStop uid now (some i) l = .error ⟨404, "no running entry"⟩ ↔
        ∀ e ∈ l, ¬(e.id = i ∧ e.userId = uid)) ∧
    (∀ uid now i l e, findById i uid l = some e →
      TracksStop uid now (some i) l =
        .ok ({ e with endAt := some now, updatedAt := now },
          updateEntry { e with endAt := some now, updatedAt := now } l)) ∧
    (∀ uid now l,
      TracksStop uid now none l = .error ⟨404, "no running entry"⟩ ↔
        ∀ e ∈ l, ¬(e.userId = uid ∧ e.endAt = none)) ∧
    (∀ uid now l e, mostRecentOpen uid l = some e →
      e ∈ l ∧ e.userId = uid ∧ e.endAt = none ∧
      (∀ b ∈ l, b.userId = uid → b.endAt = none → b.startAt ≤ e.startAt) ∧
      TracksStop uid now none l =
        .ok ({ e with endAt := some now, updatedAt := now },
          updateEntry { e with endAt := some now, updatedAt := now } l)) := by
  refine ⟨?_, ?_, ?_, ?_⟩
  · intro uid now i l
    cases hf : findById i uid l with
    | none =>
        constructor
        · intro _
          exact (findById_eq_none_iff i uid l).mp hf
        · intro _
          simp [TracksStop, hf]
    | some e =>
        constructor
        · intro h
          simp [TracksStop, hf] at h
        · intro h
          obtain ⟨hmem, hid, huid⟩ := findById_some i uid l e hf
          exact absurd ⟨hid, huid⟩ (h e hmem)
  · intro uid now i l e hf
    simp [TracksStop, hf]
  · intro uid now l
    cases hf : mostRecentOpen uid l with
    | none =>
        constructor
        · intro _
          exact (mostRecentOpen_eq_none_iff uid l).mp hf
        · intro _
          simp [TracksStop, hf]
    | some e =>
        constructor
        · intro h
          simp [TracksStop, hf] at h
        · intro h
          obtain ⟨hmem, huid, hend, -⟩ := mostRecentOpen_spec uid l e hf
          exact absurd ⟨huid, hend⟩ (h e hmem)
  · intro uid now l e hf
    obtain ⟨hmem, huid, hend, hmax⟩ := mostRecentOpen_spec uid l e hf
    refine ⟨hmem, huid, hend, hmax, ?_⟩
    simp [TracksStop, hf]

/-- C1: the single-open-entry invariant — at most one `end_at IS NULL`
entry per user — is preserved by every Session Controller transaction:
`TracksStart` (which moreover leaves the fresh entry as the user's only
open one, having closed all previously open ones before the insert),
`TracksStop`, `TracksUpdate` (under the primary-key uniqueness the
`timetrac` schema guarantees) and `TracksDelete`. -/
theorem sessionLedger_singleOpen_invariant :
    (∀ uid now fid p l, LedgerInv l →
      LedgerInv (TracksStart uid now fid p l).2) ∧
    (∀ uid now fid p l,
      ((TracksStart uid now fid p l).2).filter (isOpenFor uid) =
        [(TracksStart uid now fid p l).1]) ∧
    (∀ uid now pid l e l', LedgerInv l →
      TracksStop uid now pid l = .ok (e, l') → LedgerInv l') ∧
    (∀ uid now i p l e l', LedgerInv l → UniqueIds l →
      TracksUpdate uid now i p l = .ok (e, l') → LedgerInv l') ∧
    (∀ uid i l l', LedgerInv l → TracksDelete uid i l = .ok l' →
      LedgerInv l') := by
  refine ⟨?_, ?_, ?_, ?_, ?_⟩
  · intro uid now fid p l hinv v
    rw [show (TracksStart uid now fid p l).2 =
      closeOpen uid now l ++ [(TracksStart uid now fid p l).1] from rfl]
    rw [openCount_append, openCount_singleton]
    by_cases hv : v = uid
    · subst hv
      rw [openCount_closeOpen_self]
      split <;> omega
    · rw [openCount_closeOpen_other v uid now hv]
      have h0 : isOpenFor v (TracksStart uid now fid p l).1 = false := by
        simp only [isOpenFor, decide_eq_false_iff_not]
        rintro ⟨hu, -⟩
        exact hv (by
          rw [show (TracksStart uid now fid p l).1.userId = uid from rfl] at hu
          exact hu.symm)
      rw [h0]
      have := hinv v
      simp only [Bool.false_eq_true, if_false]
      omega
  · intro uid now fid p l
    rw [show (TracksStart uid now fid p l).2 =
      closeOpen uid now l ++ [(TracksStart uid now fid p l).1] from rfl]
    rw [List.filter_append]
    have h1 : (closeOpen uid now l).filter (isOpenFor uid) = [] := by
      rw [List.filter_eq_nil_iff]
      intro a ha
      obtain ⟨b, -, hb⟩ := List.mem_map.mp ha
      rw [← hb]
      simp [isOpenFor_closeRow]
    have h2 : isOpenFor uid (TracksStart uid now fid p l).1 = true := by
      rw [isOpenFor_eq_true_iff]
      exact ⟨rfl, rfl⟩
    rw [h1, List.filter_cons, h2]
    simp
  · intro uid now pid l e l' hinv hstop v
    obtain ⟨hend, hl⟩ := tracksStop_ok_shape uid now pid l e l' hstop
    rw [hl]
    exact Nat.le_trans (openCount_updateEntry_le v e now hend l) (hinv v)
  · intro uid now i p l e l' hinv huniq hupd v
    obtain ⟨e0, hf, he, hl⟩ := tracksUpdate_ok_shape uid now i p l e l' hupd
    obtain ⟨hmem, -, -⟩ := findById_some i uid l e0 hf
    obtain ⟨hid, huser, -, hend, -, -⟩ := applyPatch_frame p now e0
    rw [hl, ← he] at *
    rw [openCount_updateEntry_eq v e0 e l huniq hmem
      (he ▸ hid) (he ▸ huser) (he ▸ hend)]
    exact hinv v
  · intro uid i l l' hinv hdel v
    simp only [TracksDelete] at hdel
    by_cases hc : l.countP (fun e => decide (e.id = i ∧ e.userId = uid)) = 0
    · rw [if_pos hc] at hdel
      exact Except.noConfusion hdel
    · rw [if_neg hc, Except.ok.injEq] at hdel
      subst hdel
      exact Nat.le_trans ((List.filter_sublist l).countP_le _) (hinv v)

lemma ledgerInv_singleton (e : TimeEntry) : LedgerInv [e] := by
  intro uid
  rw [openCount_singleton]
  split <;> omega

/-- Concrete running entry of user 7, used to instantiate theorems. -/
def wOpen : TimeEntry := ⟨1, 7, "Web", [], "", "#fff", 5, none, 5, 5⟩

/-- Concrete closed entry of user 7, used to instantiate theorems. -/
def wClosed : TimeEntry := ⟨2, 7, "Old", [], "", "#ff0000", 1, some 3, 1, 3⟩

theorem tracksStart_spec_witness :
    (TracksStart 7 10 4 ⟨" Web ", ["a"], "n", ""⟩ [wOpen]).1.color = "#3b82f6" ∧
    { wOpen with endAt := some 10, updatedAt := 10 } ∈
      (TracksStart 7 10 4 ⟨" Web ", ["a"], "n", ""⟩ [wOpen]).2 ∧
    (TracksStart 7 10 4 ⟨" Web ", ["a"], "n", ""⟩ [wOpen]).1.endAt = none := by
  have h := tracksStart_spec 7 10 4 ⟨" Web ", ["a"], "n", ""⟩ [wOpen]
  refine ⟨?_, ?_, h.1⟩
  · rw [h.2.2.2.2.2.2.1]
    rfl
  · exact h.2.2.2.2.2.2.2.2.1 wOpen (List.mem_singleton.mpr rfl) rfl rfl

theorem tracksStop_closed_overwrite_witness :
    TracksStop 7 10 (some 2) [wClosed] =
      .ok ({ wClosed with endAt := some 10, updatedAt := 10 },
        updateEntry { wClosed with endAt := some 10, updatedAt := 10 }
          [wClosed]) ∧
    ({ wClosed with endAt := some 10, updatedAt := 10 }).endAt = some 10 ∧
    ({ wClosed with endAt := some 10, updatedAt := 10 }).updatedAt = 10 :=
  tracksStop_closed_overwrite 7 10 2 3 [wClosed] wClosed rfl rfl

theorem tracksStop_spec_witness :
    TracksStop 7 10 (some 9) [wOpen] = .error ⟨404, "no running entry"⟩ ∧
    TracksStop 7 10 (some 1) [wOpen] =
      .ok ({ wOpen with endAt := some 10, updatedAt := 10 },
        updateEntry { wOpen with endAt := some 10, updatedAt := 10 }
          [wOpen]) ∧
    TracksStop 7 10 none [] = .error ⟨404, "no running entry"⟩ ∧
    TracksStop 7 10 none [wOpen] =
      .ok ({ wOpen with endAt := some 10, updatedAt := 10 },
        updateEntry { wOpen with endAt := some 10, updatedAt := 10 }
          [wOpen]) :=
  ⟨(tracksStop_spec.1 7 10 9 [wOpen]).mpr (by decide),
   tracksStop_spec.2.1 7 10 1 [wOpen] wOpen rfl,
   (tracksStop_spec.2.2.1 7 10 []).mpr (by simp),
   (tracksStop_spec.2.2.2 7 10 [wOpen] wOpen rfl).2.2.2.2⟩

theorem sessionLedger_singleOpen_invariant_witness :
    openCount 7 (TracksStart 7 10 4 ⟨"W", [], "", ""⟩ [wOpen]).2 ≤ 1 ∧
    openCount 7
      (updateEntry { wOpen with endAt := some 10, updatedAt := 10 }
        [wOpen]) ≤ 1 ∧
    openCount 7
      (updateEntry (applyPatch ⟨some "P", none, none, none⟩ 10 wOpen)
        [wOpen]) ≤ 1 ∧
    openCount 7
      ([wOpen].filter (fun e => !(decide (e.id = 1 ∧ e.userId = 7)))) ≤ 1 :=
  ⟨sessionLedger_singleOpen_invariant.1 7 10 4 ⟨"W", [], "", ""⟩ [wOpen]
      (ledgerInv_singleton wOpen) 7,
   sessionLedger_singleOpen_invariant.2.2.1 7 10 none [wOpen] _ _
      (ledgerInv_singleton wOpen) rfl 7,
   sessionLedger_singleOpen_invariant.2.2.2.1 7 10 1
      ⟨some "P", none, none, none⟩ [wOpen] _ _
      (ledgerInv_singleton wOpen) (by simp [UniqueIds]) rfl 7,
   sessionLedger_singleOpen_invariant.2.2.2.2 7 1 [wOpen] _
      (ledgerInv_singleton wOpen) rfl 7⟩

theorem tracksDelete_rowcount_spec_witness :
    TracksDelete 7 9 [wClosed] = .error ⟨404, "not found"⟩ ∧
    wOpen ∈ ([wOpen, wClosed].filter
      (fun e => !(decide (e.id = 2 ∧ e.userId = 7)))) :=
  ⟨(tracksDelete_rowcount_spec.1 7 9 [wClosed]).mpr (by decide),
   (tracksDelete_rowcount_spec.2.2 7 2 [wOpen, wClosed] _ rfl).2 wOpen
      (List.mem_cons_self wOpen [wClosed]) (by decide)⟩

/-- C7 counterexample: a `PATCH` whose payload provides `color = "   "`
(blank after trimming) on an owned entry leaves the color field
unchanged — the provided field is not applied — so "exactly the provided
fields among {project, tags, note, color} are changed" fails on the
code: the only change is the `updated_at` bump. -/
theorem tracksUpdate_exact_change_cex :
    TracksUpdate 7 10 2 ⟨none, none, none, some "   "⟩ [wClosed] =
      .ok ({ wClosed with updatedAt := 10 },
        [{ wClosed with updatedAt := 10 }]) ∧
    ({ wClosed with updatedAt := 10 }).color = wClosed.color ∧
    wClosed.color ≠ "   " ∧ wClosed.color ≠ trimSpace "   " := by
  refine ⟨?_, rfl, ?_, ?_⟩
  · rfl
  · decide
  · decide

/-- C7 (amended): `TracksUpdate` fails 404 `"not found"` exactly when no
entry with the given id is owned by the caller; on success exactly the
provided fields among {project, tags, note, color} are applied (project
and color trimmed), except that a provided color that is blank after
trimming is ignored, and every other field — in particular the start and
end timestamps — is left unchanged (only `updated_at` is bumped). -/
theorem tracksUpdate_patch_frame :
    (∀ uid now i p l,
      TracksUpdate uid now i p l = .error ⟨404, "not found"⟩ ↔
        ∀ e ∈ l, ¬(e.id = i ∧ e.userId = uid)) ∧
    (∀ uid now i p l e, findById i uid l = some e →
      ∃ e', TracksUpdate uid now i p l = .ok (e', updateEntry e' l) ∧
        e'.id = e.id ∧ e'.userId = e.userId ∧ e'.startAt = e.startAt ∧
        e'.endAt = e.endAt ∧ e'.createdAt = e.createdAt ∧
        e'.updatedAt = now ∧
        e'.project =
          (match p.project with | some s => trimSpace s | none => e.project) ∧
        e'.tags = p.tags.getD e.tags ∧
        e'.note = p.note.getD e.note ∧
        e'.color = (match p.color with
          | some c => if trimSpace c ≠ "" then trimSpace c else e.color
          | none => e.color)) := by
  constructor
  · intro uid now i p l
    cases hf : findById i uid l with
    | none =>
        constructor
        · intro _
          exact (findById_eq_none_iff i uid l).mp hf
        · intro _
          simp [TracksUpdate, hf]
    | some e =>
        constructor
        · intro h
          simp [TracksUpdate, hf] at h
        · intro h
          obtain ⟨hmem, hid, huid⟩ := findById_some i uid l e hf
          exact absurd ⟨hid, huid⟩ (h e hmem)
  · intro uid now i p l e hf
    obtain ⟨h1, h2, h3, h4, h5, h6⟩ := applyPatch_frame p now e
    obtain ⟨g1, g2, g3, g4⟩ := applyPatch_fields p now e
    exact ⟨applyPatch p now e, by simp [TracksUpdate, hf],
      h1, h2, h3, h4, h5, h6, g1, g2, g3, g4⟩

theorem tracksUpdate_patch_frame_witness :
    TracksUpdate 7 10 9 ⟨none, none, none, none⟩ [wClosed] =
      .error ⟨404, "not found"⟩ ∧
    (applyPatch ⟨some " P ", none, none, some " #0f0 "⟩ 10 wClosed).endAt =
      wClosed.endAt ∧
    (applyPatch ⟨some " P ", none, none, some " #0f0 "⟩ 10 wClosed).startAt =
      wClosed.startAt ∧
    (applyPatch ⟨some " P ", none, none, some " #0f0 "⟩ 10 wClosed).project =
      "P" ∧
    (applyPatch ⟨some " P ", none, none, some " #0f0 "⟩ 10 wClosed).color =
      "#0f0" := by
  refine ⟨(tracksUpdate_patch_frame.1 7 10 9
    ⟨none, none, none, none⟩ [wClosed]).mpr (by decide), ?_⟩
  obtain ⟨e', hok, h2, h3, h4, h5, h6, h7, h8, h9, h10, h11⟩ :=
    tracksUpdate_patch_frame.2 7 10 2
      ⟨some " P ", none, none, some " #0f0 "⟩ [wClosed] wClosed rfl
  have hok' : TracksUpdate 7 10 2
      ⟨some " P ", none, none, some " #0f0 "⟩ [wClosed] =
      .ok (applyPatch ⟨some " P ", none, none, some " #0f0 "⟩ 10 wClosed,
        updateEntry
          (applyPatch ⟨some " P ", none, none, some " #0f0 "⟩ 10 wClosed)
          [wClosed]) := rfl
  have he : e' = applyPatch ⟨some " P ", none, none, some " #0f0 "⟩ 10 wClosed := by
    have heq := hok.symm.trans hok'
    rw [Except.ok.injEq, Prod.mk.injEq] at heq
    exact heq.1
  subst he
  exact ⟨h5, h4, by rw [h8]; decide, by rw [h11]; decide⟩

/-! ### Helper lemmas about the Token Registry -/

lemma isRevoked_revokeToken_self (jti uid : String) (exp now : Nat)
    (reg : Registry) :
    isRevoked jti (revokeToken jti uid exp now reg) = true := by
  unfold revokeToken isRevoked
  by_cases h : reg.any (fun r => r.jti = jti) = true
  · rw [if_pos h]
    rw [List.any_eq_true] at h ⊢
    obtain ⟨r, hr, hjti⟩ := h
    refine ⟨if r.jti = jti then
      { r with revokedAt := some now, expiresAt := exp, updatedAt := now }
      else r, List.mem_map_of_mem _ hr, ?_⟩
    have hj : r.jti = jti := of_decide_eq_true hjti
    rw [if_pos hj]
    simp [hj]
  · rw [if_neg h]
    rw [List.any_eq_true]
    exact ⟨⟨jti, uid, some now, exp, now, now⟩,
      List.mem_append_right _ (List.mem_singleton.mpr rfl), by simp⟩

lemma any_pointwise {α : Type} (p q : α → Bool) (l : List α)
    (h : ∀ a ∈ l, p a = q a) : l.any p = l.any q := by
  induction l with
  | nil => rfl
  | cons x xs ih =>
      rw [List.any_cons, List.any_cons, h x (List.mem_cons_self x xs),
        ih (fun a ha => h a (List.mem_cons_of_mem x ha))]

lemma isRevoked_revokeToken_other (j jti uid : String) (hne : j ≠ jti)
    (exp now : Nat) (reg : Registry) :
    isRevoked j (revokeToken jti uid exp now reg) = isRevoked j reg := by
  unfold revokeToken isRevoked
  by_cases h : reg.any (fun r => r.jti = jti) = true
  · rw [if_pos h, List.any_map]
    apply any_pointwise
    intro r _
    simp only [Function.comp]
    split
    · next hr =>
        have hd : (decide (r.jti = j)) = false :=
          decide_eq_false (fun hh => hne (hh ▸ hr))
        show (decide (r.jti = j) && (some now != none)) =
          (decide (r.jti = j) && (r.revokedAt != none))
        rw [hd, Bool.false_and, Bool.false_and]
    · rfl
  · rw [if_neg h, List.any_append]
    have h1 : ([(⟨jti, uid, some now, exp, now, now⟩ : AuthTokenRow)].any
        (fun r => r.jti = j && r.revokedAt != none)) = false := by
      simp [Ne.symm hne]
    rw [h1, Bool.or_false]

lemma revokeToken_idem (jti uid : String) (exp t : Nat) (reg : Registry) :
    revokeToken jti uid exp t (revokeToken jti uid exp t reg) =
      revokeToken jti uid exp t reg := by
  unfold revokeToken
  by_cases h : reg.any (fun r => r.jti = jti) = true
  · rw [if_pos h]
    have h2 : ((reg.map (fun r => if r.jti = jti then
        { r with revokedAt := some t, expiresAt := exp, updatedAt := t }
        else r)).any (fun r => r.jti = jti)) = true := by
      rw [List.any_map, List.any_eq_true]
      rw [List.any_eq_true] at h
      obtain ⟨r, hr, hjti⟩ := h
      refine ⟨r, hr, ?_⟩
      simp only [Function.comp]
      apply decide_eq_true
      have hj : r.jti = jti := of_decide_eq_true hjti
      rw [if_pos hj]
      exact hj
    rw [if_pos h2, List.map_map]
    apply List.map_congr_left
    intro r _
    simp only [Function.comp]
    by_cases hr : r.jti = jti
    · rw [if_pos hr]
      split
      · rfl
      · next hcond => exact absurd hr hcond
    · rw [if_neg hr, if_neg hr]
  · rw [if_neg h]
    have h2 : ((reg ++ [(⟨jti, uid, some t, exp, t, t⟩ : AuthTokenRow)]).any
        (fun r => r.jti = jti)) = true := by
      rw [List.any_append]
      simp
    rw [if_pos h2, List.map_append]
    have h3 : reg.map (fun r => if r.jti = jti then
        { r with revokedAt := some t, expiresAt := exp, updatedAt := t }
        else r) = reg := by
      have hcong : ∀ r ∈ reg, ((if r.jti = jti then
          { r with revokedAt := some t, expiresAt := exp, updatedAt := t }
          else r) : AuthTokenRow) = id r := by
        intro r hr
        rw [List.any_eq_true] at h
        have : ¬ (r.jti = jti) := fun hh => h ⟨r, hr, decide_eq_true hh⟩
        rw [if_neg this]
        rfl
      rw [List.map_congr_left hcong, List.map_id]
    rw [h3]
    have h4 : List.map (fun r => if r.jti = jti then
        ({ r with revokedAt := some t, expiresAt := exp, updatedAt := t }
          : AuthTokenRow) else r)
        [(⟨jti, uid, some t, exp, t, t⟩ : AuthTokenRow)] =
        [(⟨jti, uid, some t, exp, t, t⟩ : AuthTokenRow)] := by
      rw [List.map_cons, List.map_nil, if_pos rfl]
    rw [h4]

/-! ### Claim theorems over the token lifecycle -/

/-- C9: revoking the same JTI twice leaves the registry observably equal
to a single revocation — `isRevoked` of every JTI is unchanged by the
second revocation and stays `true` for the revoked one — and a repeated
revocation at the same instant is literally a no-op on the state. -/
theorem revoke_idempotent :
    (∀ jti uid exp t₁ t₂ reg j,
      isRevoked j (revokeToken jti uid exp t₂ (revokeToken jti uid exp t₁ reg)) =
        isRevoked j (revokeToken jti uid exp t₁ reg)) ∧
    (∀ jti uid exp t₁ t₂ reg,
      isRevoked jti
        (revokeToken jti uid exp t₂ (revokeToken jti uid exp t₁ reg)) = true) ∧
    (∀ jti uid exp t reg,
      revokeToken jti uid exp t (revokeToken jti uid exp t reg) =
        revokeToken jti uid exp t reg) := by
  refine ⟨?_, ?_, ?_⟩
  · intro jti uid exp t₁ t₂ reg j
    by_cases hj : j = jti
    · subst hj
      rw [isRevoked_revokeToken_self, isRevoked_revokeToken_self]
    · rw [isRevoked_revokeToken_other j jti uid hj,
        isRevoked_revokeToken_other j jti uid hj]
  · intro jti uid exp t₁ t₂ reg
    rw [isRevoked_revokeToken_self]
  · intro jti uid exp t reg
    exact revokeToken_idem jti uid exp t reg

/-- C3: issuance records the registry row un-revoked; after a logout
revokes the JTI, every authenticated request presenting a credential
that still verifies (valid signature, unexpired — `parse` succeeds) and
carries that JTI is rejected 401 `"token revoked"`; and when no row
exists for the JTI, the revocation upsert still creates the row
pre-revoked. -/
theorem revoked_token_rejected :
    (∀ jti uid exp now reg reg₁,
      recordToken jti uid exp now reg = some reg₁ →
        (⟨jti, uid, none, exp, now, now⟩ : AuthTokenRow) ∈ reg₁) ∧
    (∀ authz parse reg users claims jti uid exp t,
      hasBearer authz = true →
      parse (dropBearer authz) = .ok claims → claims.jti = jti →
      AuthRequired authz parse (revokeToken jti uid exp t reg) users =
        .error ⟨401, "token revoked"⟩) ∧
    (∀ authz parse ttl now reg claims,
      hasBearer authz = true →
      parse (dropBearer authz) = .ok claims →
      (Logout authz parse ttl now false reg).2 =
        revokeToken claims.jti claims.userId
          (claims.expiresAt.getD (now + ttl)) now reg) ∧
    (∀ jti uid exp now reg, (∀ r ∈ reg, r.jti ≠ jti) →
      revokeToken jti uid exp now reg =
        reg ++ [⟨jti, uid, some now, exp, now, now⟩]) := by
  refine ⟨?_, ?_, ?_, ?_⟩
  · intro jti uid exp now reg reg₁ h
    unfold recordToken at h
    by_cases hc : reg.any (fun r => r.jti = jti) = true
    · rw [if_pos hc] at h
      cases h
    · rw [if_neg hc, Option.some.injEq] at h
      rw [← h]
      exact List.mem_append_right _ (List.mem_singleton.mpr rfl)
  · intro authz parse reg users claims jti uid exp t hb hp hj
    have hne : ¬ (authz = "" ∨ ¬ hasBearer authz) := by
      rintro (h | h)
      · rw [h] at hb
        exact absurd hb (by decide)
      · exact h hb
    have hrev : isRevoked claims.jti (revokeToken jti uid exp t reg) = true := by
      rw [hj]
      exact isRevoked_revokeToken_self jti uid exp t reg
    unfold AuthRequired
    rw [if_neg hne, hp]
    simp [hrev]
  · intro authz parse ttl now reg claims hb hp
    have hne : ¬ (authz = "" ∨ ¬ hasBearer authz) := by
      rintro (h | h)
      · rw [h] at hb
        exact absurd hb (by decide)
      · exact h hb
    unfold Logout
    rw [if_neg hne, hp]
    rfl
  · intro jti uid exp now reg h
    unfold revokeToken
    rw [if_neg]
    rw [List.any_eq_true]
    rintro ⟨r, hr, hjti⟩
    exact h r hr (of_decide_eq_true hjti)

/-- C8: whatever the failure mode — missing credential, failed
verification, revoked credential, unknown user — `AuthRequired` answers
with status 401; and the response to a verification failure is the same
whatever the cause the verifier reports (expiry, bad signature,
malformation), so the externally visible rejection does not reveal it. -/
theorem auth_failure_uniform :
    (∀ authz parse reg users e,
      AuthRequired authz parse reg users = .error e → e.status = 401) ∧
    (∀ authz p₁ p₂ reg users e₁ e₂,
      p₁ (dropBearer authz) = .error e₁ →
      p₂ (dropBearer authz) = .error e₂ →
      AuthRequired authz p₁ reg users = AuthRequired authz p₂ reg users) := by
  constructor
  · intro authz parse reg users e h
    unfold AuthRequired at h
    by_cases hg : authz = "" ∨ ¬ hasBearer authz
    · rw [if_pos hg, Except.error.injEq] at h
      rw [← h]
    · rw [if_neg hg] at h
      cases hp : parse (dropBearer authz) with
      | error e0 =>
          simp only [hp, Except.error.injEq] at h
          rw [← h]
      | ok claims =>
          simp only [hp] at h
          by_cases hrev : isRevoked claims.jti reg = true
          · rw [if_pos hrev, Except.error.injEq] at h
            rw [← h]
          · rw [if_neg hrev] at h
            cases hu : findUser claims.userId users with
            | none =>
                simp only [hu, Except.error.injEq] at h
                rw [← h]
            | some u =>
                simp only [hu] at h
                exact Except.noConfusion h
  · intro authz p₁ p₂ reg users e₁ e₂ h₁ h₂
    unfold AuthRequired
    by_cases hg : authz = "" ∨ ¬ hasBearer authz
    · rw [if_pos hg, if_pos hg]
    · rw [if_neg hg, if_neg hg, h₁, h₂]

/-- C4 counterexample: with valid credentials but a failing registry
INSERT, `Login` renders 500 `"cannot persist token"` and hands the
caller no token — a persistence error while recording the row during
issuance does make login fail, contradicting the claim that the caller
still receives a usable token. -/
theorem login_persist_failure_cex :
    Login [⟨"u1", "a@b.c", "h"⟩] "a@b.c" "pw" (fun _ _ => true) "tok" "J1"
      99 5 true [] = (⟨500, "cannot persist token", none⟩, []) ∧
    Login [⟨"u1", "a@b.c", "h"⟩] "a@b.c" "pw" (fun _ _ => true) "tok" "J1"
      99 5 false [] =
      (⟨200, "ok", some "tok"⟩, [⟨"J1", "u1", none, 99, 5, 5⟩]) := by
  exact ⟨rfl, rfl⟩

/-- C4 (amended): a persistence error while recording the registry row
does not make registration fail — `Register` discards the INSERT error
and still returns 201 with the token — but the same error during login
is surfaced as a failed login (500 `"cannot persist token"`, no token);
a persistence error while revoking during logout is surfaced as a
failed logout (500 `"logout failed"`) with the registry unchanged. -/
theorem issuance_revocation_persistence :
    (∀ users email password newId hash token jti exp now reg,
      lowerStr (trimSpace email) ≠ "" → password.length ≥ 6 →
      users.find? (fun u => u.email = lowerStr (trimSpace email)) = none →
      ∀ dbFail,
        ((Register users email password newId hash token jti exp now
          dbFail reg).1).status = 201 ∧
        ((Register users email password newId hash token jti exp now
          dbFail reg).1).token = some token) ∧
    (∀ users email password checkPw token jti exp now reg u,
      users.find? (fun u => u.email = lowerStr (trimSpace email)) = some u →
      checkPw u.passwordHash password = true →
      Login users email password checkPw token jti exp now true reg =
        (⟨500, "cannot persist token", none⟩, reg)) ∧
    (∀ authz parse ttl now reg claims,
      hasBearer authz = true → parse (dropBearer authz) = .ok claims →
      Logout authz parse ttl now true reg =
        (⟨500, "logout failed", none⟩, reg)) := by
  refine ⟨?_, ?_, ?_⟩
  · intro users email password newId hash token jti exp now reg
      hmail hlen hfind dbFail
    have hguard : ¬ (lowerStr (trimSpace email) = "" ∨ password.length < 6) := by
      rintro (h | h)
      · exact hmail h
      · omega
    unfold Register
    rw [if_neg hguard]
    simp only [hfind]
    cases dbFail <;> exact ⟨trivial, trivial⟩
  · intro users email password checkPw token jti exp now reg u hfind hcheck
    unfold Login
    simp only [hfind]
    rw [if_neg (show ¬¬(checkPw u.passwordHash password = true) from
      fun hh => hh hcheck)]
    rfl
  · intro authz parse ttl now reg claims hb hp
    have hne : ¬ (authz = "" ∨ ¬ hasBearer authz) := by
      rintro (h | h)
      · rw [h] at hb
        exact absurd hb (by decide)
      · exact h hb
    unfold Logout
    rw [if_neg hne, hp]
    rfl

/-- Concrete verifier used to instantiate the middleware theorems:
accepts exactly the credential `"tok"`. -/
def wParse : Verifier := fun s =>
  if s = "tok" then .ok ⟨"u1", "J1", some 99⟩ else .error .malformed

theorem revoked_token_rejected_witness :
    (⟨"J1", "u1", none, 99, 5, 5⟩ : AuthTokenRow) ∈
      [(⟨"J1", "u1", none, 99, 5, 5⟩ : AuthTokenRow)] ∧
    AuthRequired "Bearer tok" wParse
      (revokeToken "J1" "u1" 99 6 [⟨"J1", "u1", none, 99, 5, 5⟩]) [] =
      .error ⟨401, "token revoked"⟩ ∧
    (Logout "Bearer tok" wParse 24 6 false
      [⟨"J1", "u1", none, 99, 5, 5⟩]).2 =
      revokeToken "J1" "u1" 99 6 [⟨"J1", "u1", none, 99, 5, 5⟩] ∧
    revokeToken "J1" "u1" 99 6 [] = [⟨"J1", "u1", some 6, 99, 6, 6⟩] :=
  ⟨revoked_token_rejected.1 "J1" "u1" 99 5 [] _ rfl,
   revoked_token_rejected.2.1 "Bearer tok" wParse
     [⟨"J1", "u1", none, 99, 5, 5⟩] [] ⟨"u1", "J1", some 99⟩ "J1" "u1" 99 6
     (by decide) rfl rfl,
   revoked_token_rejected.2.2.1 "Bearer tok" wParse 24 6
     [⟨"J1", "u1", none, 99, 5, 5⟩] ⟨"u1", "J1", some 99⟩ (by decide) rfl,
   revoked_token_rejected.2.2.2 "J1" "u1" 99 6 [] (by simp)⟩

theorem auth_failure_uniform_witness :
    (⟨401, "missing bearer token"⟩ : HttpErr).status = 401 ∧
    AuthRequired "Bearer x" (fun _ => .error .expired) [] [] =
      AuthRequired "Bearer x" (fun _ => .error .invalidSignature) [] [] :=
  ⟨auth_failure_uniform.1 "" wParse [] [] ⟨401, "missing bearer token"⟩ rfl,
   auth_failure_uniform.2 "Bearer x" (fun _ => .error .expired)
     (fun _ => .error .invalidSignature) [] [] .expired .invalidSignature
     rfl rfl⟩

theorem issuance_revocation_persistence_witness :
    (Register [] "a@b.c" "secret1" "u9" "h" "tok" "J1" 99 5 true []).1.status
      = 201 ∧
    (Register [] "a@b.c" "secret1" "u9" "h" "tok" "J1" 99 5 true []).1.token
      = some "tok" ∧
    Login [⟨"u1", "a@b.c", "h"⟩] "a@b.c" "pw" (fun _ _ => true) "tok" "J1"
      99 5 true [] = (⟨500, "cannot persist token", none⟩, []) ∧
    Logout "Bearer tok" wParse 24 6 true [] =
      (⟨500, "logout failed", none⟩, []) :=
  ⟨(issuance_revocation_persistence.1 [] "a@b.c" "secret1" "u9" "h" "tok"
      "J1" 99 5 [] (by decide) (by decide) rfl true).1,
   (issuance_revocation_persistence.1 [] "a@b.c" "secret1" "u9" "h" "tok"
      "J1" 99 5 [] (by decide) (by decide) rfl true).2,
   issuance_revocation_persistence.2.1 [⟨"u1", "a@b.c", "h"⟩] "a@b.c" "pw"
      (fun _ _ => true) "tok" "J1" 99 5 [] ⟨"u1", "a@b.c", "h"⟩ rfl rfl,
   issuance_revocation_persistence.2.2 "Bearer tok" wParse 24 6 []
      ⟨"u1", "J1", some 99⟩ (by decide) rfl⟩

end BuffaloAngular
